import Mathlib

/-!
Verification of the unit-conversion core of the `cup` repository
(`src/convert.py`, `src/defaults.py`).

Modelling conventions:
* Python numbers are modelled by `ℚ`.  Every numeric value exercised by the
  theorems below (5, 10, 1234.5, 0, …) is exactly representable as a double,
  so the rational model agrees with Python float semantics on them; the
  boundary of the model is documented at each definition it concerns.
* Python exceptions are modelled by `Except`: `ValueError` messages raised by
  `convert.py` itself become the enumerated constructors of `ParseError`;
  the bare `ValueError` escaping the unguarded `float()` call is the
  distinct constructor `ParseError.floatError`.
* The external `pint.UnitRegistry` collaborator is modelled by a `Registry`
  record (lookup of a unit symbol to its canonical name, dimensionality tag
  and scale factor, plus the set of known context names), as described in
  §6 of the specification.  The registry is a parameter of the theorems.
* Python lists held by the `Defaults` object are mutable heap objects;
  `defaults.py` is therefore embedded with an explicit reference heap so
  that aliasing claims (copy vs. live list) are faithfully statable.
-/

deriving instance DecidableEq for Except

namespace Cup

/-! ## Python primitives -/

/-- Value of a list of decimal digit characters. -/
def digitsToNat (cs : List Char) : Nat :=
  cs.foldl (fun a c => a * 10 + (c.toNat - 48)) 0

/-- Model of Python `float(s)` on the strings produced by
`Converter.parse_quantity` (characters drawn from digits, `+`, `-`, `.`):
an optional sign followed by digits with at most one decimal point and at
least one digit.  Returns `none` where Python raises `ValueError`.
The value is the exact rational denoted by the literal (Python rounds it to
the nearest double; all literals used in the theorems below are exact). -/
def pyFloat (s : String) : Option ℚ :=
  let cs := s.toList
  let sign : ℚ := if cs.head? = some '-' then -1 else 1
  let cs := if cs.head? = some '+' ∨ cs.head? = some '-' then cs.tail else cs
  let ip := cs.takeWhile (fun c => c ≠ '.')
  let rest := cs.drop ip.length
  match rest with
  | [] =>
      if ip.all Char.isDigit ∧ ip ≠ [] then
        some (sign * digitsToNat ip)
      else none
  | _ :: fp =>
      if ip.all Char.isDigit ∧ fp.all Char.isDigit ∧ (ip ≠ [] ∨ fp ≠ []) then
        some (sign * ((digitsToNat ip : ℚ) + (digitsToNat fp : ℚ) / 10 ^ fp.length))
      else none

/-- Model of Python `s.strip()`: drop whitespace from both ends. -/
def pyStrip (s : String) : String :=
  String.mk
    (((s.toList.dropWhile Char.isWhitespace).reverse.dropWhile
        Char.isWhitespace).reverse)

/-- Model of Python `str.split()` with no argument: split on whitespace
runs, discarding empty pieces. -/
def pySplit (s : String) : List String :=
  (s.split Char.isWhitespace).filter (fun t => t ≠ "")

/-- `replAux pat rep fuel l` replaces every occurrence of `pat` in `l` by
`rep`, scanning left to right (the semantics of Python `str.replace`).
`fuel` bounds the recursion; callers pass `l.length`, which suffices because
each step consumes at least one character.  An empty `pat` copies the input
(Python would interleave `rep` everywhere; no caller uses an empty pattern). -/
def replAux (pat rep : List Char) : Nat → List Char → List Char
  | _, [] => []
  | 0, l => l
  | fuel + 1, c :: rest =>
      if pat ≠ [] ∧ pat.isPrefixOf (c :: rest) then
        rep ++ replAux pat rep fuel ((c :: rest).drop pat.length)
      else
        c :: replAux pat rep fuel rest

/-- Model of Python `s.replace(pat, rep)`. -/
def pyReplace (s pat rep : String) : String :=
  String.mk (replAux pat.toList rep.toList s.toList.length s.toList)

/-! ## The external unit registry collaborator (spec §6) -/

/-- What the registry knows about one unit symbol: its canonical name
(`unicode(q.units)` under pint's pretty format), its dimensionality tag
(`unicode(q.dimensionality)`, e.g. `"[length]"`) and its scale factor
relative to the base unit of its dimension. -/
structure UnitDef where
  cname : String
  dim : String
  factor : ℚ
deriving DecidableEq

/-- Model of the external `pint.UnitRegistry` collaborator: symbol lookup
(`none` models `UndefinedUnitError`) and the set of known context names
(`enable_contexts` raises `KeyError` outside it). -/
structure Registry where
  lookup : String → Option UnitDef
  contexts : List String

/-- A sample registry instance used to evaluate theorems on concrete
queries: a few length units (with pint's canonical names) and one mass
unit, plus one context name. -/
def sampleUnits : String → Option UnitDef
  | "km" => some ⟨"kilometer", "[length]", 1000⟩
  | "kilometer" => some ⟨"kilometer", "[length]", 1000⟩
  | "mi" => some ⟨"mile", "[length]", 1609344 / 1000⟩
  | "mile" => some ⟨"mile", "[length]", 1609344 / 1000⟩
  | "m" => some ⟨"meter", "[length]", 1⟩
  | "meter" => some ⟨"meter", "[length]", 1⟩
  | "ft" => some ⟨"foot", "[length]", 3048 / 10000⟩
  | "g" => some ⟨"gram", "[mass]", 1⟩
  | _ => none

def sampleReg : Registry := ⟨sampleUnits, ["cooking"]⟩

/-! ## convert.py : Input, errors, Converter.parse -/

/-- `Input` — parsed user query (`convert.py`, class `Input`).
`context` is `""` when no context was extracted (Python uses the empty
list `[]`, which is falsy exactly like `''`). -/
structure Input where
  number : ℚ
  dimensionality : String
  from_unit : String
  to_unit : Option String
  context : String
deriving DecidableEq

/-- The distinct failure modes of `Converter.parse` and its helpers.
The first six are the `ValueError`s raised explicitly by `convert.py`;
`floatError` is the bare `ValueError` escaping the unguarded `float()`
call in `parse_quantity`; `indexError` is the `IndexError` that
`units[0]` would raise on an empty token list (unreachable from `parse`,
which checks the tail first). -/
inductive ParseError where
  | unknownContext (ctx : String)
  | noQuantity
  | startWithNumber
  | noUnits
  | tooManyUnits
  | unknownUnit (u : String)
  | floatError (buf : String)
  | indexError
deriving DecidableEq

/-- The user-visible message of each failure, as written in the source. -/
def ParseError.message : ParseError → String
  | .unknownContext ctx => "Unknown context: " ++ ctx
  | .noQuantity => "No quantity"
  | .startWithNumber => "Start your query with a number"
  | .noUnits => "No units specified"
  | .tooManyUnits => "More than 2 units specified"
  | .unknownUnit u => "Unknown unit: " ++ u
  | .floatError buf => "could not convert string to float: " ++ buf
  | .indexError => "list index out of range"

/-- `Converter` — the separator configuration (`convert.py`, class
`Converter.__init__`; the `Defaults` collaborator is passed separately). -/
structure Converter where
  decimal_separator : Char
  thousands_separator : Char
deriving DecidableEq

/-- The Python constructor defaults: decimal `'.'`, thousands `','`. -/
def defaultConverter : Converter := ⟨'.', ','⟩

/-- The characters accepted by the quantity scan:
`'+-1234567890' + thousands_separator + decimal_separator`. -/
def qtyChars (conv : Converter) : List Char :=
  ['+', '-', '1', '2', '3', '4', '5', '6', '7', '8', '9', '0',
   conv.thousands_separator, conv.decimal_separator]

/-- The scan loop of `Converter.parse_quantity`: the list `qty` built by
the `for c in query` loop.  Faithful to the source, including the quirk
that the `+` branch is a separate `if` falling through into the
`if thousands / elif decimal / else` chain, so a `'+'` (when it is neither
separator) appends both `''` and `'+'` — two entries for one consumed
character. -/
def scanQty (conv : Converter) : List Char → List String
  | [] => []
  | c :: rest =>
      if c ∈ qtyChars conv then
        ((if c = '+' then [""] else []) ++
         (if c = conv.thousands_separator then [""]
          else if c = conv.decimal_separator then ["."]
          else [String.singleton c])) ++ scanQty conv rest
      else []

/-- Characters of the lowercase alphabet string scanned by
`parse_context`. -/
def lcLetters : List Char := "abcdefghijklmnopqrstuvwxyz".toList

/-- `Converter.parse_context`: consume a maximal run of lowercase ASCII
letters; if non-empty, it must name a known registry context
(`ureg.enable_contexts` raises `KeyError` otherwise, re-raised as
`ValueError`), and the rest of the query is stripped.  With no letters the
query is returned untouched and the context is falsy (modelled `""`). -/
def Converter.parse_context (reg : Registry) (query : String) :
    Except ParseError (String × String) :=
  let ctx := query.toList.takeWhile (fun c => c ∈ lcLetters)
  if ctx.isEmpty then .ok ("", query)
  else
    let ctxs := String.mk ctx
    if ctxs ∈ reg.contexts then
      .ok (ctxs, pyStrip (String.mk (query.toList.drop ctx.length)))
    else .error (.unknownContext ctxs)

/-- `Converter.parse_quantity`: run the scan; with an empty scan return
`(None, '')`; otherwise the tail is `query[len(qty):].strip()` — note
`len(qty)` counts list entries, not consumed characters, so a `'+'`
(two entries) skips one extra character — and the quantity is
`float(''.join(qty))`, whose `ValueError` is not caught. -/
def Converter.parse_quantity (conv : Converter) (query : String) :
    Except ParseError (Option ℚ × String) :=
  let qty := scanQty conv query.toList
  if qty.length = 0 then .ok (none, "")
  else
    let tail := pyStrip (String.mk (query.toList.drop qty.length))
    match pyFloat (String.join qty) with
    | none => .error (.floatError (String.join qty))
    | some q => .ok (some q, tail)

/-- `Converter.parse_units`: split the tail on whitespace; first token is
the source unit, a second is the destination, a third is an error; then
validate both against the registry.  The returned pint quantities are
modelled by the magnitude paired with the source `UnitDef`, and the
optional destination `UnitDef` (pint `Quantity(1, u)` is truthy, so the
later `if to_unit:` test is `Option.isSome`). -/
def Converter.parse_units (reg : Registry) (query : String) (qty : ℚ) :
    Except ParseError ((ℚ × UnitDef) × Option UnitDef) :=
  let units := (pySplit query).map pyStrip
  match units with
  | [] => .error .indexError
  | u0 :: rest =>
      if 2 < units.length then .error .tooManyUnits
      else
        match reg.lookup u0 with
        | none => .error (.unknownUnit u0)
        | some fd =>
            match rest.head? with
            | none => .ok ((qty, fd), none)
            | some t =>
                match reg.lookup t with
                | none => .error (.unknownUnit t)
                | some td => .ok ((qty, fd), some td)

/-- `Converter.parse`: context, then quantity, then the error ladder
(`No quantity` / `Start your query with a number` / `No units specified`),
then units; on success build the `Input` from the source quantity's
magnitude, dimensionality and canonical unit name, and the destination's
canonical name when present. -/
def Converter.parse (conv : Converter) (reg : Registry) (query : String) :
    Except ParseError Input :=
  match Converter.parse_context reg query with
  | .error e => .error e
  | .ok (ctx, q1) =>
      match conv.parse_quantity q1 with
      | .error e => .error e
      | .ok (q?, tail) =>
          match q? with
          | none => if ctx ≠ "" then .error .noQuantity else .error .startWithNumber
          | some q =>
              if tail.length = 0 then .error .noUnits
              else
                match Converter.parse_units reg tail q with
                | .error e => .error e
                | .ok ((m, fd), td?) =>
                    .ok { number := m, dimensionality := fd.dim,
                          from_unit := fd.cname,
                          to_unit := td?.map (fun td => td.cname),
                          context := ctx }

/-! ## defaults.py : the Defaults store

Python lists are mutable objects; `defaults.py` stores one list per
dimensionality in the `defaultdict` `self._defs`, and `defaults()` returns
the slice copy `self._defs[dimensionality][:]`.  To state the aliasing
behaviour we embed the lists in an explicit heap of references. -/

/-- A heap of Python list objects: a fresh-reference counter and a store
(reads find the most recently written binding). -/
structure Heap where
  next : Nat
  mem : List (Nat × List String)
deriving DecidableEq

/-- Read the list object behind reference `r` (unallocated references read
as `[]`; no operation below ever reads one). -/
def Heap.read (h : Heap) (r : Nat) : List String :=
  match h.mem.find? (fun p => p.1 == r) with
  | some p => p.2
  | none => []

/-- In-place mutation of the list object behind `r`. -/
def Heap.write (h : Heap) (r : Nat) (v : List String) : Heap :=
  ⟨h.next, (r, v) :: h.mem⟩

/-- Allocate a fresh list object holding `v`. -/
def Heap.alloc (h : Heap) (v : List String) : Nat × Heap :=
  (h.next, ⟨h.next + 1, (h.next, v) :: h.mem⟩)

/-- The `Defaults` object (`defaults.py`): `_defs` maps each
dimensionality to the reference of its unit list; `_settings` is the
value persisted under the `default_units` settings key, and `writes`
counts the settings writes performed by `_save` (the spec's "persistence
write").  The heap of list objects rides along. -/
structure Defaults where
  heap : Heap
  _defs : List (String × Nat)
  _settings : List (String × List String)
  writes : Nat
deriving DecidableEq

/-- `self._defs[dimensionality]` on the `defaultdict(list)`: return the
stored reference, or auto-vivify a fresh empty list (dict insertion puts
the new key last). -/
def ddGetRef (s : Defaults) (d : String) : Nat × Defaults :=
  match s._defs.find? (fun p => p.1 == d) with
  | some p => (p.2, s)
  | none =>
      let rh := s.heap.alloc []
      (rh.1, { s with heap := rh.2, _defs := s._defs ++ [(d, rh.1)] })

/-- `Defaults.__init__` / `Defaults._load`: build the `defaultdict` from
the mapping stored in the settings collaborator, allocating one list
object per dimensionality. -/
def Defaults.load (init : List (String × List String)) : Defaults :=
  let built := init.foldl
    (fun (acc : List (String × Nat) × Heap) p =>
      let rh := acc.2.alloc p.2
      (acc.1 ++ [(p.1, rh.1)], rh.2))
    ([], ⟨0, []⟩)
  { heap := built.2, _defs := built.1, _settings := init, writes := 0 }

/-- `Defaults.defaults`: `return self._defs[dimensionality][:]` — the
slice allocates a fresh copy of the list and returns its reference. -/
def Defaults.defaults (s : Defaults) (d : String) : Nat × Defaults :=
  let rs := ddGetRef s d
  let rh := rs.2.heap.alloc (rs.2.heap.read rs.1)
  (rh.1, { rs.2 with heap := rh.2 })

/-- `Defaults.is_default`: `unit in self._defs[dimensionality]`. -/
def Defaults.is_default (s : Defaults) (d u : String) : Bool × Defaults :=
  let rs := ddGetRef s d
  (decide (u ∈ rs.2.heap.read rs.1), rs.2)

/-- `Defaults._save`: `self._settings['default_units'] = dict(self._defs)`
— materialised here by reading every list object, counting one write. -/
def Defaults._save (s : Defaults) : Defaults :=
  { s with _settings := s._defs.map (fun p => (p.1, s.heap.read p.2)),
           writes := s.writes + 1 }

/-- `Defaults.add`: append the unit to the live list and save, unless it
is already a default. -/
def Defaults.add (s : Defaults) (d u : String) : Defaults :=
  let bs := Defaults.is_default s d u
  if bs.1 then bs.2
  else
    let rs := ddGetRef bs.2 d
    Defaults._save
      { rs.2 with heap := rs.2.heap.write rs.1 (rs.2.heap.read rs.1 ++ [u]) }

/-- The contents of the unit list currently stored for dimensionality `d`
(empty when `d` was never added). -/
def defaultsView (s : Defaults) (d : String) : List String :=
  match s._defs.find? (fun p => p.1 == d) with
  | some p => s.heap.read p.2
  | none => []

/-- Lookup in a persisted mapping. -/
def alookup (m : List (String × List String)) (k : String) : Option (List String) :=
  (m.find? (fun p => p.1 == k)).map (fun p => p.2)

/-- Well-formedness: every stored list reference has been allocated. -/
def Defaults.wf (s : Defaults) : Bool :=
  s._defs.all (fun p => p.2 < s.heap.next)

/-- The experiment of claim C9: call `defaults(d)` and then mutate the
returned list object in place to `v`. -/
def mutateReturned (s : Defaults) (d : String) (v : List String) : Defaults :=
  let rs := Defaults.defaults s d
  { rs.2 with heap := rs.2.heap.write rs.1 v }

/-! ## convert.py : Conversion and Converter.convert -/

/-- `Conversion` — one conversion result (`convert.py`, class
`Conversion`). -/
structure Conversion where
  from_number : ℚ
  from_unit : String
  to_number : ℚ
  to_unit : String
  dimensionality : String
deriving DecidableEq

/-- The failure modes of `Converter.convert`: the `NoToUnits` exception,
the `UndefinedUnitError` escaping `ureg.Quantity(i.number, i.from_unit)`
(uncaught in the source), the `ValueError('Unknown unit: …')` raised for a
destination unit, and pint's `DimensionalityError` escaping `qty.to`. -/
inductive ConvError where
  | noToUnits
  | undefinedUnit (u : String)
  | unknownUnit (u : String)
  | dimensionality (src dst : String)
deriving DecidableEq

/-- The destination unit set of `Converter.convert`: the explicit
`to_unit` alone when present, else the saved defaults for the input's
dimensionality with the source unit filtered out.  (The list returned by
`Defaults.defaults` is a fresh copy whose contents are `defaultsView`.) -/
def destUnits (s : Defaults) (i : Input) : List String :=
  match i.to_unit with
  | some u => [u]
  | none => (defaultsView s i.dimensionality).filter (fun u => u ≠ i.from_unit)

/-- The `for u in units` loop body of `Converter.convert`: validate each
destination unit (`ureg.Quantity(1, u)`), convert
(`qty.to(to_unit)` = `i.number * fd.factor / ud.factor` when the
dimensions agree, `DimensionalityError` otherwise) and collect the
`Conversion` records in order; the first failure aborts. -/
def convertList (reg : Registry) (i : Input) (fd : UnitDef) :
    List String → Except ConvError (List Conversion)
  | [] => .ok []
  | u :: rest =>
      match reg.lookup u with
      | none => .error (.unknownUnit u)
      | some ud =>
          if ud.dim = fd.dim then
            match convertList reg i fd rest with
            | .error e => .error e
            | .ok cs =>
                .ok ({ from_number := i.number, from_unit := i.from_unit,
                       to_number := i.number * fd.factor / ud.factor,
                       to_unit := u, dimensionality := i.dimensionality } :: cs)
          else .error (.dimensionality fd.dim ud.dim)

/-- `Converter.convert`: destination set, `NoToUnits` check, then source
quantity construction and the conversion loop. -/
def Converter.convert (reg : Registry) (s : Defaults) (i : Input) :
    Except ConvError (List Conversion) :=
  let units := destUnits s i
  if units = [] then .error .noToUnits
  else
    match reg.lookup i.from_unit with
    | none => .error (.undefinedUnit i.from_unit)
    | some fd => convertList reg i fd units

/-! ## convert.py : Formatter

Python floats are modelled by `ℚ`.  The two places where float behaviour
leaks into the formatter — `str(i)` inside `_decimal_places` and the
rounding of `'{:0,.Nf}'.format(n)` — are modelled exactly on the values
whose shortest decimal representation terminates (which covers every value
the theorems below evaluate); outside that range the model returns `none`
and no claim is settled there. -/

/-- `Formatter` — configuration (`convert.py`, class `Formatter`).
Python defaults: `decimal_places=2, decimal_separator='.',
thousands_separator='', dynamic_decimals=True`. -/
structure Formatter where
  decimal_places : Nat
  decimal_separator : String
  thousands_separator : String
  dynamic_decimals : Bool
deriving DecidableEq

/-- The `while p < m` search loop of `Formatter._decimal_places`,
returning the final `p` together with the last value of `i = n * 10 ** p`
(whose string form the source inspects next).  `fuel` is `m - p`, the
number of loop iterations left; on exhaustion the loop has ended with
`p = m` and `i` from the iteration at `m - 1`. -/
def dpLoopAux (n : ℚ) (m : Nat) : Nat → Nat → Nat × ℚ
  | 0, p => (p, n * 10 ^ (m - 1))
  | fuel + 1, p =>
      if 10 ≤ n * 10 ^ p then (p, n * 10 ^ p)
      else dpLoopAux n m fuel (p + 1)

/-- Decimal digits of `m`, zero-padded on the left to width `k`. -/
def padDigits (k m : Nat) : List Char :=
  List.replicate (k - (Nat.toDigits 10 m).length) '0' ++ Nat.toDigits 10 m

/-- Least `k < 18` with `q * 10 ^ k` integral, when one exists. -/
def terminatingK (q : ℚ) : Option Nat :=
  (List.range 18).find? (fun k => (q * 10 ^ k).den == 1)

/-- The digit run after the decimal point in Python `str(x)`, for a float
`x` of exact value `q` whose `str` is a plain terminating decimal:
`str` prints the shortest representation, so an integer shows as `"x.0"`
(digits `['0']`) and any other terminating value shows its expansion with
no trailing zero.  Returns `none` where `str` would use scientific
form (`|x| < 1e-4` or `|x| ≥ 1e16`) or where the shortest representation
does not terminate within the modelled width — the model boundary. -/
def fracDigits (q : ℚ) : Option (List Char) :=
  if q = 0 then some ['0']
  else if |q| < 1 / 10 ^ 4 ∨ 10 ^ 16 ≤ |q| then none
  else
    match terminatingK q with
    | none => none
    | some 0 => some ['0']
    | some (k + 1) =>
        some (padDigits (k + 1) ((|q| * 10 ^ (k + 1)).num.toNat % 10 ^ (k + 1)))

/-- The `while s.endswith('0')` trim loop of `_decimal_places`, run on the
reversed fractional digit string: each trailing `'0'` removed decrements
`p` (which may pass below zero, hence `Int`). -/
def trimRev : List Char → Int → Int
  | '0' :: rest, p => trimRev rest (p - 1)
  | _, p => p

/-- `Formatter._decimal_places`: the fixed floor when `dynamic_decimals`
is off or `n == 0`; otherwise the upward search, then the trailing-zero
trim of `str(i)`'s fractional part, clamped below by the floor.  (In the
source the no-fraction form of `str(i)` returns `p` directly; in the model
that case is scientific form, i.e. `fracDigits = none`.) -/
def Formatter._decimal_places (f : Formatter) (n : ℚ) : Option Nat :=
  if ¬ f.dynamic_decimals ∨ n = 0 then some f.decimal_places
  else
    let m := max f.decimal_places 10 + 1
    let pi := dpLoopAux n m (m - f.decimal_places) f.decimal_places
    match fracDigits pi.2 with
    | none => none
    | some s =>
        some (max (trimRev s.reverse (pi.1 : Int)) (f.decimal_places : Int)).toNat

/-- Round to the nearest integer, ties to even — the rounding of Python
fixed-point float formatting (exact for exactly-representable values). -/
def rhe (q : ℚ) : ℤ :=
  if q - ⌊q⌋ < 1 / 2 then ⌊q⌋
  else if 1 / 2 < q - ⌊q⌋ then ⌊q⌋ + 1
  else if ⌊q⌋ % 2 = 0 then ⌊q⌋ else ⌊q⌋ + 1

/-- Insert a `','` after every three digits of a reversed digit run —
the digit grouping of the `','` format option, seen from the right. -/
def groupRev : List Char → List Char
  | a :: b :: c :: d :: rest => a :: b :: c :: ',' :: groupRev (d :: rest)
  | l => l

/-- Group the integer-part digits of a number in threes with `','`. -/
def groupDigits (s : List Char) : List Char :=
  (groupRev s.reverse).reverse

/-- Model of `'{:0,.pf}'.format(q)` (with grouping) and `'{:0.pf}'.format(q)`
(without): sign, grouped integer part, and a `p`-digit fractional part
when `p > 0`, after half-even rounding at `p` places. -/
def formatFixed (grouping : Bool) (p : Nat) (q : ℚ) : String :=
  let scaled := (rhe (|q| * 10 ^ p)).toNat
  let ipDigits := Nat.toDigits 10 (scaled / 10 ^ p)
  String.mk
    ((if q < 0 then ['-'] else []) ++
     (if grouping then groupDigits ipDigits else ipDigits) ++
     (if p = 0 then [] else '.' :: padDigits p (scaled % 10 ^ p)))

/-- `Formatter.formatted`: format with grouping exactly when
`thousands_separator` is non-empty (truthy), then swap the machine
separators for the configured ones through the `||comma||` / `||point||`
placeholders, and append the unit if given.  `none` when the input falls
outside the float-string model of `_decimal_places`. -/
def Formatter.formatted (f : Formatter) (n : ℚ) (unit : Option String) :
    Option String :=
  match f._decimal_places n with
  | none => none
  | some p =>
      let num := formatFixed (f.thousands_separator ≠ "") p n
      let num := pyReplace (pyReplace num "," "||comma||") "." "||point||"
      let num := pyReplace (pyReplace num "||comma||" f.thousands_separator)
                   "||point||" f.decimal_separator
      some (match unit with
            | some u => num ++ " " ++ u
            | none => num)

/-- The store, input and single result used by the C8 witness:
`2 meter` with saved length defaults `["kilometer"]`. -/
def w8s : Defaults := Defaults.load [("[length]", ["kilometer"])]

def w8i : Input :=
  { number := 2, dimensionality := "[length]", from_unit := "meter",
    to_unit := none, context := "" }

def w8c : Conversion :=
  { from_number := 2, from_unit := "meter", to_number := 2 * 1 / 1000,
    to_unit := "kilometer", dimensionality := "[length]" }

/-! ## Supporting lemmas -/

theorem find?_append_left_none {α} (p : α → Bool) (l1 l2 : List α)
    (h : l1.find? p = none) : (l1 ++ l2).find? p = l2.find? p := by
  induction l1 with
  | nil => rfl
  | cons a t ih =>
      by_cases ha : p a
      · rw [List.find?_cons_of_pos _ ha] at h; cases h
      · rw [List.find?_cons_of_neg _ ha] at h
        simpa [List.find?_cons_of_neg _ ha] using ih h

theorem find?_map_snd (g : Nat → List String) (l : List (String × Nat)) (d : String) :
    (l.map (fun q => (q.1, g q.2))).find? (fun q => q.1 == d) =
      (l.find? (fun q => q.1 == d)).map (fun q => (q.1, g q.2)) := by
  induction l with
  | nil => rfl
  | cons a t ih =>
      simp only [List.map_cons, List.find?]
      by_cases ha : a.1 == d
      · simp [ha]
      · simp [ha, ih]

theorem Heap.read_write_self (h : Heap) (r : Nat) (v : List String) :
    (h.write r v).read r = v := by
  simp [Heap.read, Heap.write, List.find?_cons_of_pos]

theorem Heap.read_write_ne (h : Heap) (r r' : Nat) (v : List String)
    (hne : r' ≠ r) : (h.write r v).read r' = h.read r' := by
  simp only [Heap.read, Heap.write]
  rw [List.find?_cons_of_neg _ (by simpa using fun e => hne e.symm)]

theorem Heap.read_alloc_self (h : Heap) (v : List String) :
    (h.alloc v).2.read (h.alloc v).1 = v := by
  simp [Heap.read, Heap.alloc, List.find?_cons_of_pos]

theorem Heap.read_alloc_ne (h : Heap) (r' : Nat) (v : List String)
    (hne : r' ≠ h.next) : (h.alloc v).2.read r' = h.read r' := by
  simp only [Heap.read, Heap.alloc]
  rw [List.find?_cons_of_neg _ (by simpa using fun e => hne e.symm)]

theorem Heap.alloc_fst (h : Heap) (v : List String) : (h.alloc v).1 = h.next := rfl

theorem Heap.alloc_next (h : Heap) (v : List String) :
    (h.alloc v).2.next = h.next + 1 := rfl

theorem Heap.write_next (h : Heap) (r : Nat) (v : List String) :
    (h.write r v).next = h.next := rfl

/-- The first component of `Defaults.is_default` is membership in the
currently stored list for the dimensionality. -/
theorem is_default_fst (s : Defaults) (d u : String) :
    (Defaults.is_default s d u).1 = decide (u ∈ defaultsView s d) := by
  cases hf : s._defs.find? (fun p => p.1 == d) with
  | some p => simp [Defaults.is_default, ddGetRef, defaultsView, hf]
  | none =>
      simp [Defaults.is_default, ddGetRef, defaultsView, hf, Heap.read_alloc_self]

/-! ## The claims -/

set_option maxRecDepth 4000

/-- C1: with the default separators, the query `"+5 km mi"` scans the
quantity characters `+`, `5` (the leading `+` counts as matched scan
output without contributing to the magnitude), leaving the unit tail
`"km mi"` and the quantity `5.0`; the full parse yields an `Input` with
number `5`, the canonical symbol of `"km"` (`"kilometer"` in the sample
registry) as `from_unit` and the canonical symbol of `"mi"` (`"mile"`)
as `to_unit`. -/
theorem claim_C1 :
    defaultConverter.parse_quantity "+5 km mi" = .ok (some 5, "km mi") ∧
    defaultConverter.parse sampleReg "+5 km mi" =
      .ok { number := 5, dimensionality := "[length]", from_unit := "kilometer",
            to_unit := some "mile", context := "" } := by
  with_unfolding_all decide

/-- C5: with `decimal_places = 2`, decimal separator `","` and thousands
separator `"."`, formatting `1234.5` yields exactly `"1.234,50"`, with
`dynamic_decimals` on or off: the two-step placeholder swap keeps the
`.`-as-thousands and `,`-as-decimal substitutions from corrupting each
other. -/
theorem claim_C5 :
    Formatter.formatted ⟨2, ",", ".", true⟩ (2469 / 2) none = some "1.234,50" ∧
    Formatter.formatted ⟨2, ",", ".", false⟩ (2469 / 2) none = some "1.234,50" := by
  with_unfolding_all decide

/-- C6: for every formatter configuration, the decimal-place count used
for the number `0.0` is exactly the configured `decimal_places`,
regardless of `dynamic_decimals`. -/
theorem claim_C6 (f : Formatter) : f._decimal_places 0 = some f.decimal_places := by
  simp [Formatter._decimal_places]

/-- C7: `parse "10"` — a quantity with an empty unit tail — fails with
the no-units error; a query whose quantity scan matches zero characters
fails with the distinct no-quantity error when a context was extracted
and with the "start your query with a number" variant when none was; the
two no-number messages differ. -/
theorem claim_C7 :
    (∀ reg : Registry, defaultConverter.parse reg "10" = .error .noUnits) ∧
    (∀ (conv : Converter) (reg : Registry) (q ctx rest : String),
      Converter.parse_context reg q = .ok (ctx, rest) →
      scanQty conv rest.toList = [] →
      conv.parse reg q =
        .error (if ctx ≠ "" then ParseError.noQuantity
                else ParseError.startWithNumber)) ∧
    ParseError.noQuantity.message ≠ ParseError.startWithNumber.message := by
  refine ⟨fun reg => by with_unfolding_all rfl,
    fun conv reg q ctx rest hctx hscan => ?_, by decide⟩
  have hs : scanQty conv rest.data = [] := hscan
  by_cases hc : ctx = "" <;>
    simp [Converter.parse, hctx, Converter.parse_quantity, hs, hc]

/-- Witness for C7: `"cooking banana"` has the known context `"cooking"`
and an empty quantity scan, so it fails with no-quantity; `"?"` has no
context and an empty scan, so it fails with the start-with-a-number
variant. -/
theorem claim_C7_witness :
    defaultConverter.parse sampleReg "cooking banana" = .error .noQuantity ∧
    defaultConverter.parse sampleReg "?" = .error .startWithNumber := by
  constructor
  · have h := claim_C7.2.1 defaultConverter sampleReg "cooking banana"
      "cooking" "banana" (by decide) (by decide)
    simpa using h
  · have h := claim_C7.2.1 defaultConverter sampleReg "?" "" "?"
      (by decide) (by decide)
    simpa using h

/-- C10: whenever the quantity scan matches a non-empty run but the
buffered text is not a valid float literal, `parse` fails with the bare
float-conversion error carrying that buffer — not with any of the
enumerated invalid-query reasons (which are the other, distinct
constructors of `ParseError`). -/
theorem claim_C10 (conv : Converter) (reg : Registry) (q ctx rest : String)
    (hctx : Converter.parse_context reg q = .ok (ctx, rest))
    (hne : scanQty conv rest.toList ≠ [])
    (hbad : pyFloat (String.join (scanQty conv rest.toList)) = none) :
    conv.parse reg q =
      .error (.floatError (String.join (scanQty conv rest.toList))) := by
  have hlen : ¬(scanQty conv rest.data).length = 0 := by
    simpa [List.length_eq_zero] using hne
  have hb : pyFloat (String.join (scanQty conv rest.data)) = none := hbad
  simp [Converter.parse, hctx, Converter.parse_quantity, hlen, hb]

/-- Witness for C10: `"5-3 m"` scans the non-empty run `5`, `-`, `3`,
whose buffer `"5-3"` is not a float literal, and `parse` fails with the
bare float error on that buffer. -/
theorem claim_C10_witness :
    Converter.parse_context sampleReg "5-3 m" = .ok ("", "5-3 m") ∧
    scanQty defaultConverter "5-3 m".toList ≠ [] ∧
    pyFloat (String.join (scanQty defaultConverter "5-3 m".toList)) = none ∧
    defaultConverter.parse sampleReg "5-3 m" = .error (.floatError "5-3") := by
  refine ⟨by with_unfolding_all decide, by with_unfolding_all decide,
    by with_unfolding_all decide, ?_⟩
  have h := claim_C10 defaultConverter sampleReg "5-3 m" "" "5-3 m"
    (by with_unfolding_all decide) (by with_unfolding_all decide)
    (by with_unfolding_all decide)
  have e : String.join (scanQty defaultConverter "5-3 m".toList) = "5-3" := by
    with_unfolding_all decide
  rw [e] at h
  exact h

/-- C2: whenever `Input.to_unit` is present and resolves (and is
dimensionally compatible with the source unit), `convert` returns exactly
one `Conversion`, whose `to_unit` is the input's `to_unit` — also when it
equals `from_unit`, since an explicit destination is never filtered. -/
theorem claim_C2 (reg : Registry) (s : Defaults) (i : Input) (u : String)
    (fd ud : UnitDef)
    (htu : i.to_unit = some u)
    (hf : reg.lookup i.from_unit = some fd)
    (hu : reg.lookup u = some ud)
    (hdim : ud.dim = fd.dim) :
    Converter.convert reg s i =
      .ok [{ from_number := i.number, from_unit := i.from_unit,
             to_number := i.number * fd.factor / ud.factor,
             to_unit := u, dimensionality := i.dimensionality }] := by
  simp [Converter.convert, destUnits, htu, hf, convertList, hu, hdim]

/-- Witness for C2: converting `2 kilometer` with the explicit destination
`kilometer` — equal to the source unit — yields exactly that one
conversion. -/
theorem claim_C2_witness :
    Converter.convert sampleReg (Defaults.load [])
      { number := 2, dimensionality := "[length]", from_unit := "kilometer",
        to_unit := some "kilometer", context := "" } =
      .ok [{ from_number := 2, from_unit := "kilometer",
             to_number := 2 * 1000 / 1000, to_unit := "kilometer",
             dimensionality := "[length]" }] :=
  claim_C2 sampleReg (Defaults.load [])
    { number := 2, dimensionality := "[length]", from_unit := "kilometer",
      to_unit := some "kilometer", context := "" }
    "kilometer" ⟨"kilometer", "[length]", 1000⟩ ⟨"kilometer", "[length]", 1000⟩
    rfl rfl rfl rfl

/-- C3: when `Input.to_unit` is absent and the saved defaults for the
input's dimensionality, with the source unit removed, are empty (in
particular when nothing is saved), `convert` fails with the `NoToUnits`
error and produces no conversion. -/
theorem claim_C3 (reg : Registry) (s : Defaults) (i : Input)
    (htu : i.to_unit = none)
    (hempty : (defaultsView s i.dimensionality).filter
      (fun u => u ≠ i.from_unit) = []) :
    Converter.convert reg s i = .error .noToUnits := by
  have hd : destUnits s i = [] := by
    simp only [destUnits, htu]
    exact hempty
  simp [Converter.convert, hd]

/-- Witness for C3: a store with no saved defaults at all makes
`convert` of `5 kilometer` (no destination) fail with `NoToUnits`. -/
theorem claim_C3_witness :
    Converter.convert sampleReg (Defaults.load [])
      { number := 5, dimensionality := "[length]", from_unit := "kilometer",
        to_unit := none, context := "" } = .error .noToUnits :=
  claim_C3 sampleReg (Defaults.load [])
    { number := 5, dimensionality := "[length]", from_unit := "kilometer",
      to_unit := none, context := "" }
    rfl rfl

/-- Every conversion emitted by the loop of `Converter.convert` carries
the input's number, source unit and dimensionality, and the emitted
`to_unit`s are exactly the destination list in order. -/
theorem convertList_ok (reg : Registry) (i : Input) (fd : UnitDef) :
    ∀ (us : List String) (l : List Conversion),
      convertList reg i fd us = .ok l →
      l.map Conversion.to_unit = us ∧
      ∀ c ∈ l, c.dimensionality = i.dimensionality ∧
        c.from_number = i.number ∧ c.from_unit = i.from_unit := by
  intro us
  induction us with
  | nil =>
      intro l h
      simp only [convertList] at h
      injection h with h
      subst h
      simp
  | cons u rest ih =>
      intro l h
      simp only [convertList] at h
      cases hl : reg.lookup u with
      | none => simp [hl] at h
      | some ud =>
          simp only [hl] at h
          by_cases hd : ud.dim = fd.dim
          · rw [if_pos hd] at h
            cases hr : convertList reg i fd rest with
            | error e => simp [hr] at h
            | ok cs =>
                simp only [hr, Except.ok.injEq] at h
                subst h
                have hih := ih cs hr
                refine ⟨by simpa using hih.1, ?_⟩
                intro c hc
                rcases List.mem_cons.1 hc with hc | hc
                · subst hc; exact ⟨rfl, rfl, rfl⟩
                · exact hih.2 c hc
          · rw [if_neg hd] at h; cases h

/-- C8: whenever `convert` succeeds, every returned `Conversion` has the
input's dimensionality, number and source unit, and the returned
`to_unit`s are exactly the destination set in order (the explicit unit
alone, or the saved defaults in insertion order with the source unit
removed). -/
theorem claim_C8 (reg : Registry) (s : Defaults) (i : Input)
    (l : List Conversion)
    (h : Converter.convert reg s i = .ok l) :
    l.map Conversion.to_unit = destUnits s i ∧
    ∀ c ∈ l, c.dimensionality = i.dimensionality ∧
      c.from_number = i.number ∧ c.from_unit = i.from_unit := by
  by_cases he : destUnits s i = []
  · rw [Converter.convert, if_pos he] at h; cases h
  · rw [Converter.convert, if_neg he] at h
    cases hl : reg.lookup i.from_unit with
    | none => rw [hl] at h; cases h
    | some fd => rw [hl] at h; exact convertList_ok reg i fd (destUnits s i) l h

/-- Witness for C8: converting `2 meter` against saved defaults
`["kilometer"]` succeeds, and the result satisfies the C8 invariants. -/
theorem claim_C8_witness :
    Converter.convert sampleReg w8s w8i = .ok [w8c] ∧
    [w8c].map Conversion.to_unit = destUnits w8s w8i ∧
    ∀ c ∈ [w8c], c.dimensionality = w8i.dimensionality ∧
      c.from_number = w8i.number ∧ c.from_unit = w8i.from_unit := by
  have h : Converter.convert sampleReg w8s w8i = .ok [w8c] := by
    with_unfolding_all decide
  exact ⟨h, (claim_C8 sampleReg w8s w8i [w8c] h).1,
    (claim_C8 sampleReg w8s w8i [w8c] h).2⟩

/-- Looking up a dimensionality in the mapping persisted by `_save`
yields the heap contents of its stored reference. -/
theorem alookup_save (s3 : Defaults) (d : String) :
    alookup (Defaults._save s3)._settings d =
      (s3._defs.find? (fun p => p.1 == d)).map (fun p => s3.heap.read p.2) := by
  simp only [Defaults._save, alookup, find?_map_snd]
  cases s3._defs.find? (fun p => p.1 == d) <;> simp

/-- C4: `Defaults.add` is idempotent.  When the unit is already a default
for the dimensionality, `add` returns the state completely unchanged — in
particular no persistence write happens.  A first `add` appends the unit
at the end of the list and persists immediately (exactly one settings
write, whose stored mapping carries the appended list); consequently a
duplicate-free defaults list stays duplicate-free. -/
theorem claim_C4 (s : Defaults) (d u : String) :
    ((Defaults.is_default s d u).1 = true → Defaults.add s d u = s) ∧
    ((Defaults.is_default s d u).1 = false →
      defaultsView (Defaults.add s d u) d = defaultsView s d ++ [u] ∧
      (Defaults.add s d u).writes = s.writes + 1 ∧
      alookup (Defaults.add s d u)._settings d =
        some (defaultsView s d ++ [u])) ∧
    ((defaultsView s d).Nodup → (defaultsView (Defaults.add s d u) d).Nodup) := by
  have h1 : (Defaults.is_default s d u).1 = true → Defaults.add s d u = s := by
    intro hb
    cases hf : s._defs.find? (fun p => p.1 == d) with
    | some p =>
        simp only [Defaults.is_default, ddGetRef, hf] at hb
        simp [Defaults.add, Defaults.is_default, ddGetRef, hf, hb]
    | none =>
        exfalso
        simp [Defaults.is_default, ddGetRef, hf, Heap.read_alloc_self] at hb
  have h2 : (Defaults.is_default s d u).1 = false →
      defaultsView (Defaults.add s d u) d = defaultsView s d ++ [u] ∧
      (Defaults.add s d u).writes = s.writes + 1 ∧
      alookup (Defaults.add s d u)._settings d =
        some (defaultsView s d ++ [u]) := by
    intro hb
    cases hf : s._defs.find? (fun p => p.1 == d) with
    | some p =>
        simp only [Defaults.is_default, ddGetRef, hf] at hb
        have hadd : Defaults.add s d u = Defaults._save
            { s with heap := s.heap.write p.2 (s.heap.read p.2 ++ [u]) } := by
          simp [Defaults.add, Defaults.is_default, ddGetRef, hf, hb]
        refine ⟨?_, ?_, ?_⟩
        · rw [hadd]
          simp [Defaults._save, defaultsView, hf, Heap.read_write_self]
        · rw [hadd]
          simp [Defaults._save]
        · rw [hadd, alookup_save, hf]
          simp [defaultsView, hf, Heap.read_write_self]
    | none =>
        have hfind1 : (s._defs ++ [(d, (s.heap.alloc []).1)]).find?
            (fun p => p.1 == d) = some (d, (s.heap.alloc []).1) := by
          rw [find?_append_left_none _ _ _ hf]
          simp [List.find?]
        have hadd : Defaults.add s d u = Defaults._save
            { heap := (s.heap.alloc []).2.write (s.heap.alloc []).1
                ((s.heap.alloc []).2.read (s.heap.alloc []).1 ++ [u]),
              _defs := s._defs ++ [(d, (s.heap.alloc []).1)],
              _settings := s._settings, writes := s.writes } := by
          simp [Defaults.add, Defaults.is_default, ddGetRef, hf, hfind1,
            Heap.read_alloc_self]
        refine ⟨?_, ?_, ?_⟩
        · rw [hadd]
          simp [Defaults._save, defaultsView, hf, hfind1,
            Heap.read_write_self, Heap.read_alloc_self]
        · rw [hadd]
          simp [Defaults._save]
        · rw [hadd, alookup_save, hfind1]
          simp [defaultsView, hf, Heap.read_write_self, Heap.read_alloc_self]
  refine ⟨h1, h2, ?_⟩
  intro hnd
  by_cases hb : (Defaults.is_default s d u).1 = true
  · rw [h1 hb]; exact hnd
  · have hb' : (Defaults.is_default s d u).1 = false := by
      simpa using hb
    have hu : u ∉ defaultsView s d := by
      have hfst := is_default_fst s d u
      rw [hb'] at hfst
      simpa using hfst.symm
    rw [(h2 hb').1]
    simp [List.nodup_append, hnd, hu]

/-- Witness for C4: with saved length defaults `["mi"]`, adding `"mi"`
again returns the state unchanged, while adding `"mi"` to an empty store
appends it and performs one settings write. -/
theorem claim_C4_witness :
    Defaults.add (Defaults.load [("[length]", ["mi"])]) "[length]" "mi" =
      Defaults.load [("[length]", ["mi"])] ∧
    defaultsView (Defaults.add (Defaults.load []) "[length]" "mi") "[length]" =
      ["mi"] ∧
    (Defaults.add (Defaults.load []) "[length]" "mi").writes = 1 := by
  refine ⟨?_, ?_, ?_⟩
  · exact (claim_C4 (Defaults.load [("[length]", ["mi"])]) "[length]" "mi").1
      (by with_unfolding_all decide)
  · have h := ((claim_C4 (Defaults.load []) "[length]" "mi").2.1
      (by with_unfolding_all decide)).1
    rw [h]
    with_unfolding_all decide
  · have h := ((claim_C4 (Defaults.load []) "[length]" "mi").2.1
      (by with_unfolding_all decide)).2.1
    rw [h]
    rfl

/-- C9: `Defaults.defaults` returns a copy, never the live list.  The
returned list object holds the stored contents; mutating it afterwards
(to any value `v`) changes neither the contents a later `defaults` call
reads, nor `is_default`, nor the persisted mapping, and the state stays
well formed; a dimensionality never added reads as the empty sequence
rather than an error. -/
theorem claim_C9 (s : Defaults) (d u : String) (v : List String)
    (hwf : s.wf = true) :
    (Defaults.defaults s d).2.heap.read (Defaults.defaults s d).1 =
      defaultsView s d ∧
    defaultsView (mutateReturned s d v) d = defaultsView s d ∧
    (Defaults.is_default (mutateReturned s d v) d u).1 =
      (Defaults.is_default s d u).1 ∧
    (mutateReturned s d v)._settings = s._settings ∧
    (mutateReturned s d v).wf = true ∧
    (s._defs.find? (fun p => p.1 == d) = none → defaultsView s d = []) := by
  have hlt : ∀ p ∈ s._defs, p.2 < s.heap.next := by
    intro p hp
    have := (List.all_eq_true.1 hwf) p hp
    simpa using this
  cases hf : s._defs.find? (fun p => p.1 == d) with
  | some p =>
      have hplt : p.2 < s.heap.next := hlt p (List.mem_of_find?_eq_some hf)
      have hview : defaultsView s d = s.heap.read p.2 := by
        simp [defaultsView, hf]
      have hb : defaultsView (mutateReturned s d v) d = defaultsView s d := by
        simp only [mutateReturned, Defaults.defaults, ddGetRef, hf,
          defaultsView]
        rw [Heap.read_write_ne _ _ _ _ (by simp [Heap.alloc_fst]; omega),
          Heap.read_alloc_ne _ _ _ (by omega)]
      refine ⟨?_, hb, ?_, ?_, ?_, ?_⟩
      · simp [Defaults.defaults, ddGetRef, hf, defaultsView,
          Heap.read_alloc_self]
      · rw [is_default_fst, is_default_fst, hb]
      · simp [mutateReturned, Defaults.defaults, ddGetRef, hf]
      · simp only [mutateReturned, Defaults.defaults, ddGetRef, hf,
          Defaults.wf, List.all_eq_true]
        intro q hq
        have := hlt q hq
        simp [Heap.write_next, Heap.alloc_next]
        omega
      · intro h; simp [hf] at h
  | none =>
      have hview : defaultsView s d = [] := by simp [defaultsView, hf]
      have hfind1 : (s._defs ++ [(d, (s.heap.alloc []).1)]).find?
          (fun p => p.1 == d) = some (d, (s.heap.alloc []).1) := by
        rw [find?_append_left_none _ _ _ hf]
        simp [List.find?]
      have hb : defaultsView (mutateReturned s d v) d = defaultsView s d := by
        simp only [mutateReturned, Defaults.defaults, ddGetRef, hf,
          defaultsView, hfind1]
        rw [Heap.read_write_ne _ _ _ _
            (by simp [Heap.alloc_fst, Heap.alloc_next]),
          Heap.read_alloc_ne _ _ _
            (by simp [Heap.alloc_fst, Heap.alloc_next]),
          Heap.read_alloc_self]
      refine ⟨?_, hb, ?_, ?_, ?_, ?_⟩
      · simp [Defaults.defaults, ddGetRef, hf, defaultsView, hview,
          Heap.read_alloc_self]
      · rw [is_default_fst, is_default_fst, hb]
      · simp [mutateReturned, Defaults.defaults, ddGetRef, hf]
      · simp only [mutateReturned, Defaults.defaults, ddGetRef, hf,
          Defaults.wf, List.all_eq_true]
        intro q hq
        rcases List.mem_append.1 hq with hq | hq
        · have := hlt q hq
          simp [Heap.write_next, Heap.alloc_next]
          omega
        · simp only [List.mem_singleton] at hq
          subst hq
          simp [Heap.write_next, Heap.alloc_next, Heap.alloc_fst]
          omega
      · intro _; exact hview

/-- Witness for C9: with saved length defaults `["mi", "ft"]`, calling
`defaults` and clobbering the returned copy with `["hacked"]` leaves the
store reading `["mi", "ft"]`, `is_default` unchanged, and the persisted
mapping untouched. -/
theorem claim_C9_witness :
    (Defaults.load [("[length]", ["mi", "ft"])]).wf = true ∧
    defaultsView
        (mutateReturned (Defaults.load [("[length]", ["mi", "ft"])])
          "[length]" ["hacked"]) "[length]" = ["mi", "ft"] ∧
    (mutateReturned (Defaults.load [("[length]", ["mi", "ft"])])
        "[length]" ["hacked"])._settings =
      (Defaults.load [("[length]", ["mi", "ft"])])._settings := by
  have h := claim_C9 (Defaults.load [("[length]", ["mi", "ft"])])
    "[length]" "mi" ["hacked"] (by with_unfolding_all decide)
  refine ⟨by with_unfolding_all decide, ?_, h.2.2.2.1⟩
  rw [h.2.1]
  with_unfolding_all decide

end Cup
